import Mathlib

/-!
Verification development for the AdminPanel Directory Consistency &
Permission Engine (Node/Express backend).

Shallow embedding notes:
* `hasPermission` embeds the hierarchy-aware evaluator of
  `src/server/src/models/data.js`; the JS accumulator `parentPerm` and its
  truthiness test are embedded by `parentChain`.
* `UserRec.hasPermission` / `UserRec.hasAnyPermission` /
  `UserRec.hasAllPermissions` embed the instance methods of
  `src/server/src/models/schemas/user.schema.js`.
* `paginateArray` embeds `src/server/src/utils/pagination.util.js`; JS
  string truthiness of the cursor is embedded by `cursorTruthy`.
* `UserService.*` and `AuthService.login` embed the service layer
  (`user.service.js`, `auth.service.js`); the MongoDB collection is an
  explicit `Store` value, a transaction is the pair result
  `(Except err α) × Store` where an aborted transaction returns the
  caller's store unchanged.
-/

/-- JS `parentPerm = parentPerm ? parentPerm + '.' + parts[i] : parts[i]`
accumulation from `hasPermission` in `data.js`: the list of successive
values that `parentPerm` takes while looping over `parts`. -/
def parentChain (cur : String) : List String → List String
  | [] => []
  | p :: rest =>
    let cur2 := if cur = "" then p else cur ++ "." ++ p
    cur2 :: parentChain cur2 rest

/-- JS `String.prototype.split('.')` for the one-character separator `.`,
embedded structurally on the character list. -/
def splitDotChars : List Char → List String
  | [] => [""]
  | c :: rest =>
    if c = '.' then "" :: splitDotChars rest
    else
      match splitDotChars rest with
      | [] => [String.mk [c]]
      | s :: ss => String.mk (c :: s.data) :: ss

/-- JS `requiredPermission.split('.')`. -/
def splitDot (s : String) : List String := splitDotChars s.data

/-- `hasPermission(userPermissions, requiredPermission)` from
`src/server/src/models/data.js` (lines 916-938): wildcard `*`, then exact
membership, then the parent-permission loop over the leading segments
(`parts[0] .. parts[length-2]`). -/
def hasPermission (userPermissions : List String) (requiredPermission : String) : Bool :=
  if userPermissions.contains "*" then true
  else if userPermissions.contains requiredPermission then true
  else
    (parentChain "" ((splitDot requiredPermission).dropLast)).any
      (fun p => userPermissions.contains p)

/-- Spec-side helper: join segments with dots (`seg1.seg2...segk`). -/
def joinDots : List String → String
  | [] => ""
  | [p] => p
  | p :: q :: rest => p ++ "." ++ joinDots (q :: rest)

/-- Spec-side notion used by the claim: the proper dotted leading-segment
parents of `required` (`seg1`, `seg1.seg2`, ..., excluding the full
string). -/
def properParents (required : String) : List String :=
  (List.range ((splitDot required).length - 1)).map
    (fun k => joinDots ((splitDot required).take (k + 1)))

/-- A record paginated by `paginateArray` (the `idField` default `'id'` is
the `id` field; `val` stands for the rest of the row). -/
structure PageRec where
  id : String
  val : Nat
deriving DecidableEq, Repr

/-- The `pagination` object of `paginateArray`. -/
structure PageInfo where
  nextCursor : Option String
  hasMore : Bool
  limit : Nat
  total : Nat
deriving DecidableEq, Repr

/-- The result object `{ data, pagination }` of `paginateArray`. -/
structure PageResult where
  data : List PageRec
  pagination : PageInfo
deriving DecidableEq, Repr

/-- JS `Array.prototype.findIndex`, as an `Option Nat` (JS returns `-1`
for "not found", embedded as `none`). -/
def findIndexAux (p : PageRec → Bool) : List PageRec → Option Nat
  | [] => none
  | a :: l => if p a then some 0 else (findIndexAux p l).map (· + 1)

/-- The `startIndex` computation of `paginateArray`: the JS truthiness
test `if (cursor)` is false for `null` and for the empty string. -/
def paginateStart (items : List PageRec) (cursor : Option String) : Nat :=
  match cursor with
  | none => 0
  | some c =>
    if c = "" then 0
    else
      match findIndexAux (fun item => item.id == c) items with
      | some i => i + 1
      | none => 0

/-- `paginateArray(items, cursor, limit)` from
`src/server/src/utils/pagination.util.js` (lines 37-61). -/
def paginateArray (items : List PageRec) (cursor : Option String) (limit : Nat) :
    PageResult :=
  let startIndex := paginateStart items cursor
  let paginatedItems := (items.drop startIndex).take (limit + 1)
  let hasMore := decide (paginatedItems.length > limit)
  let data := if hasMore then paginatedItems.dropLast else paginatedItems
  let nextCursor := if hasMore then data.getLast?.map PageRec.id else none
  ⟨data, ⟨nextCursor, hasMore, limit, items.length⟩⟩

/-- `createPaginationResult(items, limit)` from
`src/server/src/utils/pagination.util.js` (lines 70-83); the returned
object has no `total` field, embedded here as the fetched length. -/
def createPaginationResult (items : List PageRec) (limit : Nat) : PageResult :=
  let hasMore := decide (items.length > limit)
  let data := if hasMore then items.dropLast else items
  let nextCursor :=
    if hasMore && decide (data.length > 0) then data.getLast?.map PageRec.id else none
  ⟨data, ⟨nextCursor, hasMore, limit, items.length⟩⟩

/-- The chained traversal of the claim: start at `cursor = null`, feed each
`nextCursor` into the next call while `hasMore`; `fuel` bounds the number
of calls so the function is total. -/
def collectPages (items : List PageRec) (limit : Nat) : Nat → Option String → List PageRec
  | 0, _ => []
  | fuel + 1, cursor =>
    let r := paginateArray items cursor limit
    if r.pagination.hasMore then
      r.data ++ collectPages items limit fuel r.pagination.nextCursor
    else r.data

/-- The full traversal: `items.length + 1` calls always suffice when the
traversal terminates (each productive call returns at least one row). -/
def traverseAll (items : List PageRec) (limit : Nat) : List PageRec :=
  collectPages items limit (items.length + 1) none

/-- A stored user document: the fields of `user.schema.js` that the
modeled operations consult (the `user.service.js` variant references role
and department by id; `avatar` and the embedded snapshots are never
consulted by the claims and are omitted). -/
structure UserRec where
  _id : String
  name : String
  email : String
  password : String
  roleId : String
  departmentId : Option String
  reportingManagerId : Option String
  reportCode : String
  status : String
  lastLogin : Option Nat
  permissions : List String
  updatedAt : Nat
deriving DecidableEq, Repr

/-- A stored role document (`Role.findById` only tests existence). -/
structure RoleRec where
  _id : String
deriving DecidableEq, Repr

/-- A stored department document; `headId` backs the department-head
dependency check of the delete paths. -/
structure DepartmentRec where
  _id : String
  headId : Option String
deriving DecidableEq, Repr

/-- The MongoDB database as an explicit value: the three collections the
service layer touches. -/
structure Store where
  users : List UserRec
  roles : List RoleRec
  departments : List DepartmentRec
deriving DecidableEq, Repr

/-- The user document as returned by every read path
(`select('-password')` / `toLean` / `delete userObject.password`): all
stored fields except the password hash. -/
structure UserView where
  _id : String
  name : String
  email : String
  roleId : String
  departmentId : Option String
  reportingManagerId : Option String
  reportCode : String
  status : String
  lastLogin : Option Nat
  permissions : List String
  updatedAt : Nat
deriving DecidableEq, Repr

def UserRec.toView (u : UserRec) : UserView :=
  ⟨u._id, u.name, u.email, u.roleId, u.departmentId, u.reportingManagerId,
    u.reportCode, u.status, u.lastLogin, u.permissions, u.updatedAt⟩

/-- Instance method `userSchema.methods.hasPermission`: exact membership in
`this.permissions`. -/
def UserRec.hasPermission (u : UserRec) (permission : String) : Bool :=
  u.permissions.contains permission

/-- Instance method `userSchema.methods.hasAnyPermission`:
`permissionsArray.some(p => this.permissions.includes(p))`. -/
def UserRec.hasAnyPermission (u : UserRec) (permissionsArray : List String) : Bool :=
  permissionsArray.any (fun permission => u.permissions.contains permission)

/-- Instance method `userSchema.methods.hasAllPermissions`:
`permissionsArray.every(p => this.permissions.includes(p))`. -/
def UserRec.hasAllPermissions (u : UserRec) (permissionsArray : List String) : Bool :=
  permissionsArray.all (fun permission => u.permissions.contains permission)

/-- A thrown JS error: either an `AppError` from `error.middleware.js`
(statusCode, code, details) or a plain `new Error(message)`. -/
inductive JsError where
  | appError (statusCode : Nat) (code : String) (message : String)
      (details : List (String × String)) : JsError
  | jsError (message : String) : JsError
deriving DecidableEq, Repr

instance {ε α : Type} [DecidableEq ε] [DecidableEq α] : DecidableEq (Except ε α) :=
  fun x y =>
    match x, y with
    | .ok a, .ok b => decidable_of_iff (a = b) (by simp)
    | .ok _, .error _ => isFalse (by simp)
    | .error _, .ok _ => isFalse (by simp)
    | .error e, .error f => decidable_of_iff (e = f) (by simp)

/-- `createValidationError` from `error.middleware.js`. -/
def createValidationError (details : List (String × String)) : JsError :=
  .appError 400 "VALIDATION_ERROR" "Validation failed" details

/-- `createNotFoundError` from `error.middleware.js`. -/
def createNotFoundError (resource : String) : JsError :=
  .appError 404 "NOT_FOUND" (resource ++ " not found") []

/-- `createUnauthorizedError` from `error.middleware.js`. -/
def createUnauthorizedError (message : String) : JsError :=
  .appError 401 "UNAUTHORIZED" message []

/-- `createForbiddenError` from `error.middleware.js`. -/
def createForbiddenError (message : String) : JsError :=
  .appError 403 "FORBIDDEN" message []

/-- The status the global `errorHandler` middleware reports:
`err.statusCode || 500`. -/
def errorStatusCode : JsError → Nat
  | .appError s _ _ _ => s
  | .jsError _ => 500

/-- The code the global `errorHandler` middleware reports:
`err.code || 'INTERNAL_ERROR'`. -/
def errorCode : JsError → String
  | .appError _ c _ _ => c
  | .jsError _ => "INTERNAL_ERROR"

/-- The message carried by the error. -/
def errorMessage : JsError → String
  | .appError _ _ m _ => m
  | .jsError m => m

/-- A hexadecimal digit. -/
def isHexDigitChar (c : Char) : Bool :=
  c.isDigit || (('a' ≤ c) && (c ≤ 'f')) || (('A' ≤ c) && (c ≤ 'F'))

/-- `mongoose.Types.ObjectId.isValid`: a 12-character string or a
24-character hex string. -/
def isValidObjectId (s : String) : Bool :=
  s.length == 12 || (s.length == 24 && s.data.all isHexDigitChar)

/-- Models `bcrypt.hash` as a deterministic injective tagging; the claims
depend only on hashes of distinct inputs being distinct, never on bcrypt
internals. -/
def bcryptHash (plain : String) : String := "bcrypt$" ++ plain

/-- `bcrypt.compare(password, hash)`. -/
def bcryptCompare (password hash : String) : Bool := hash == bcryptHash password

/-- JS `String.prototype.toLowerCase()`, embedded structurally. -/
def toLowerStr (s : String) : String := String.mk (s.data.map Char.toLower)

/-- JS `String.prototype.toUpperCase()`, embedded structurally. -/
def toUpperStr (s : String) : String := String.mk (s.data.map Char.toUpper)

/-- JS truthiness of an optional string field: `undefined`/`null` and the
empty string are falsy. -/
def truthyStr : Option String → Bool
  | none => false
  | some s => s != ""

/-- Static `User.emailExists(email, excludeId)` from `user.schema.js`
(lines 191-199): `findOne({email: email.toLowerCase(), _id: {$ne:
excludeId}})` coerced to a boolean. -/
def emailExists (store : Store) (email : String) (excludeId : Option String) : Bool :=
  store.users.any (fun u =>
    u.email == toLowerStr email &&
      match excludeId with
      | none => true
      | some e => u._id != e)

/-- Static `User.reportCodeExists(reportCode, excludeId)` from
`user.schema.js` (lines 201-208). -/
def reportCodeExists (store : Store) (reportCode : String) (excludeId : Option String) :
    Bool :=
  store.users.any (fun u =>
    u.reportCode == toUpperStr reportCode &&
      match excludeId with
      | none => true
      | some e => u._id != e)

/-- `User.findById`. -/
def findUserById (store : Store) (id : String) : Option UserRec :=
  store.users.find? (fun u => u._id == id)

/-- `Role.findById`. -/
def findRoleById (store : Store) (id : String) : Option RoleRec :=
  store.roles.find? (fun r => r._id == id)

/-- `Department.findById`. -/
def findDepartmentById (store : Store) (id : String) : Option DepartmentRec :=
  store.departments.find? (fun d => d._id == id)

/-- `User.countDocuments({reportingManagerId: id})`. -/
def countSubordinates (store : Store) (id : String) : Nat :=
  (store.users.filter (fun u => u.reportingManagerId == some id)).length

/-- `Department.countDocuments({headId: id})`. -/
def countDeptHeadOf (store : Store) (id : String) : Nat :=
  (store.departments.filter (fun d => d.headId == some id)).length

/-- `User.deleteOne({_id: id})` (a no-op when no document matches). -/
def deleteUserDoc (store : Store) (id : String) : Store :=
  { store with users := store.users.filter (fun u => u._id != id) }

/-- `user.save()` persisting a modified document in place. -/
def saveUserDoc (store : Store) (u : UserRec) : Store :=
  { store with users := store.users.map (fun v => if v._id == u._id then u else v) }

/-- Input to `UserService.createUser`. `_id` carries the ObjectId the
driver generates at insert time (every use in this development passes a
well-formed 24-hex id); `status`, `permissions` and `lastLogin` take the
schema defaults. -/
structure CreateData where
  _id : String
  name : String
  email : String
  password : String
  roleId : String
  departmentId : Option String
  reportingManagerId : Option String
  reportCode : String
deriving DecidableEq, Repr

/-- The document built by `User.create` after the pre-save hook: email
lowercased by the schema setter, report code uppercased, password hashed,
schema defaults applied. -/
def buildUserDoc (d : CreateData) (now : Nat) : UserRec :=
  { _id := d._id
    name := d.name
    email := toLowerStr d.email
    password := bcryptHash d.password
    roleId := d.roleId
    departmentId := d.departmentId
    reportingManagerId := d.reportingManagerId
    reportCode := toUpperStr d.reportCode
    status := "active"
    lastLogin := none
    permissions := []
    updatedAt := now }

/-- Patch input to `UserService.updateUser`; a `none` field is absent
(`undefined`). `departmentId`/`reportingManagerId` distinguish absent
(`none`), null (`some none`) and a value (`some (some v)`), matching the
code's `!== undefined` tests. String fields carry either a string or are
absent (the controllers never pass null for them). -/
structure UpdateData where
  name : Option String
  email : Option String
  password : Option String
  roleId : Option String
  departmentId : Option (Option String)
  reportingManagerId : Option (Option String)
  reportCode : Option String
  status : Option String
  permissions : Option (List String)
deriving DecidableEq, Repr

/-- `Object.assign(user, data)`, then `user.updatedAt = new Date()`, then
the pre-save hook on `user.save()`: report code uppercased, password
hashed when (and only when) the patch modified it; the email schema setter
lowercases an assigned email. -/
def applyPatch (u : UserRec) (d : UpdateData) (now : Nat) : UserRec :=
  { u with
    name := d.name.getD u.name
    email := match d.email with
      | some e => toLowerStr e
      | none => u.email
    password := match d.password with
      | some p => bcryptHash p
      | none => u.password
    roleId := d.roleId.getD u.roleId
    departmentId := d.departmentId.getD u.departmentId
    reportingManagerId := d.reportingManagerId.getD u.reportingManagerId
    reportCode := toUpperStr (d.reportCode.getD u.reportCode)
    status := d.status.getD u.status
    permissions := d.permissions.getD u.permissions
    updatedAt := now }

namespace UserService

/-- `UserService.getUserById` (part_009 lines 84-101): ObjectId format
check, then a password-excluding read. -/
def getUserById (store : Store) (id : String) : Except JsError UserView :=
  if !(isValidObjectId id) then
    .error (createValidationError [("id", "Invalid user ID format")])
  else
    match findUserById store id with
    | none => .error (createNotFoundError "User")
    | some u => .ok u.toView

/-- `UserService.createUser` (part_009 lines 103-168). The returned store
is the caller's store on every failure before or inside the transaction
(abort = rollback); on success it carries the inserted document. -/
def createUser (store : Store) (data : CreateData) (now : Nat) :
    Except JsError UserView × Store :=
  if reportCodeExists store data.reportCode none then
    (.error (createValidationError [("reportCode", "Report code already in use")]), store)
  else if emailExists store data.email none then
    (.error (createValidationError [("email", "Email already in use")]), store)
  else if data.password.length < 6 then
    (.error (createValidationError [("password", "Password must be at least 6 characters")]),
      store)
  else if (findRoleById store data.roleId).isNone then
    (.error (.jsError "Invalid role ID"), store)
  else if truthyStr data.departmentId
      && (findDepartmentById store (data.departmentId.getD "")).isNone then
    (.error (.jsError "Invalid department ID"), store)
  else if truthyStr data.reportingManagerId
      && (findUserById store (data.reportingManagerId.getD "")).isNone then
    (.error (.jsError "Invalid reporting manager ID"), store)
  else
    let newStore : Store := { store with users := store.users ++ [buildUserDoc data now] }
    match getUserById newStore data._id with
    | .error e => (.error e, newStore)
    | .ok v => (.ok v, newStore)

/-- `UserService.updateUser` (part_009 lines 170-276). -/
def updateUser (store : Store) (id : String) (data : UpdateData) (now : Nat) :
    Except JsError UserView × Store :=
  if !(isValidObjectId id) then
    (.error (createValidationError [("id", "Invalid user ID format")]), store)
  else
    match findUserById store id with
    | none => (.error (createNotFoundError "User"), store)
    | some existingUser =>
      if truthyStr data.email && data.email.getD "" != existingUser.email
          && emailExists store (data.email.getD "") (some id) then
        (.error (createValidationError [("email", "Email already in use")]), store)
      else if truthyStr data.reportCode
          && data.reportCode.getD "" != existingUser.reportCode
          && reportCodeExists store (data.reportCode.getD "") (some id) then
        (.error (createValidationError [("reportCode", "Report code already in use")]),
          store)
      else if truthyStr data.password && (data.password.getD "").length < 6 then
        (.error
          (createValidationError [("password", "Password must be at least 6 characters")]),
          store)
      else
        match findUserById store id with
        | none => (.error (.jsError "User not found"), store)
        | some user =>
          if truthyStr data.roleId && data.roleId.getD "" != user.roleId
              && (findRoleById store (data.roleId.getD "")).isNone then
            (.error (.jsError "Invalid role ID"), store)
          else if data.departmentId.isSome
              && truthyStr (data.departmentId.getD none)
              && some ((data.departmentId.getD none).getD "") != user.departmentId
              && (findDepartmentById store
                    ((data.departmentId.getD none).getD "")).isNone then
            (.error (.jsError "Invalid department ID"), store)
          else if data.reportingManagerId.isSome
              && truthyStr (data.reportingManagerId.getD none)
              && some ((data.reportingManagerId.getD none).getD "")
                  != user.reportingManagerId
              && (findUserById store
                    ((data.reportingManagerId.getD none).getD "")).isNone then
            (.error (.jsError "Invalid reporting manager ID"), store)
          else
            let u2 := applyPatch user data now
            let newStore := saveUserDoc store u2
            match getUserById newStore u2._id with
            | .error e => (.error e, newStore)
            | .ok v => (.ok v, newStore)

/-- `UserService.deleteUser` (part_009 lines 278-323): ObjectId check,
existence, subordinate and department-head dependency checks, then the
delete; any throw aborts the transaction, leaving the store unchanged. -/
def deleteUser (store : Store) (id : String) : Except JsError Bool × Store :=
  if !(isValidObjectId id) then
    (.error (createValidationError [("id", "Invalid user ID format")]), store)
  else
    match findUserById store id with
    | none => (.error (createNotFoundError "User"), store)
    | some _ =>
      if countSubordinates store id > 0 then
        (.error
          (.jsError "Cannot delete user with subordinates. Reassign subordinates first."),
          store)
      else if countDeptHeadOf store id > 0 then
        (.error (.jsError "Cannot delete department head. Reassign department first."),
          store)
      else
        (.ok true, deleteUserDoc store id)

/-- `UserService.bulkCreateUsers` (part_009 lines 373-392): a sequential
loop; each failure is recorded as `{data, error: error.message}` and the
loop continues. -/
def bulkCreateUsers (store : Store) (usersData : List CreateData) (now : Nat) :
    (List UserView × List (CreateData × String)) × Store :=
  match usersData with
  | [] => (([], []), store)
  | d :: rest =>
    match createUser store d now with
    | (.ok u, store2) =>
      let r := bulkCreateUsers store2 rest now
      ((u :: r.1.1, r.1.2), r.2)
    | (.error e, store2) =>
      let r := bulkCreateUsers store2 rest now
      ((r.1.1, (d, errorMessage e) :: r.1.2), r.2)

/-- The per-id loop of `UserService.bulkDeleteUsers`: only the subordinate
and department-head dependency checks run (no existence check), then
`deleteOne`. -/
def bulkDeleteLoop (store : Store) (ids : List String) :
    (List String × List (String × String)) × Store :=
  match ids with
  | [] => (([], []), store)
  | id :: rest =>
    if countSubordinates store id > 0 || countDeptHeadOf store id > 0 then
      let r := bulkDeleteLoop store rest
      ((r.1.1, (id, "Has dependencies") :: r.1.2), r.2)
    else
      let r := bulkDeleteLoop (deleteUserDoc store id) rest
      ((id :: r.1.1, r.1.2), r.2)

/-- `UserService.bulkDeleteUsers` (part_009 lines 394-445): whole-batch
ObjectId validation, then the per-id best-effort loop in one transaction. -/
def bulkDeleteUsers (store : Store) (ids : List String) :
    Except JsError (List String × List (String × String)) × Store :=
  let invalidIds := ids.filter (fun id => !(isValidObjectId id))
  if invalidIds.length > 0 then
    (.error (createValidationError
      [("ids", "Invalid user ID format: " ++ String.intercalate ", " invalidIds)]), store)
  else
    let (res, store2) := bulkDeleteLoop store ids
    (.ok res, store2)

end UserService

namespace AuthService

/-- `AuthService.login` (auth.service.js lines 18-60): input presence
check, lookup by lowercased email, active-status check, bcrypt comparison,
then `lastLogin` update; the user is returned without the password. -/
def login (store : Store) (email password : String) (now : Nat) :
    Except JsError UserView × Store :=
  if email == "" || password == "" then
    (.error (createValidationError [("credentials", "Email and password are required")]),
      store)
  else
    match store.users.find? (fun u => u.email == toLowerStr email) with
    | none => (.error (createUnauthorizedError "Invalid email or password"), store)
    | some user =>
      if user.status != "active" then
        (.error
          (createUnauthorizedError "Account is inactive. Please contact administrator."),
          store)
      else if !(bcryptCompare password user.password) then
        (.error (createUnauthorizedError "Invalid email or password"), store)
      else
        let u2 := { user with lastLogin := some now }
        (.ok u2.toView, saveUserDoc store u2)

end AuthService

/-- Demo fixtures used by witnesses and counterexamples: ObjectId-valid
ids and a role so that concrete service calls go through. -/
def demoIdA : String := "aaaaaaaaaaaaaaaaaaaaaaaa"

def demoIdB : String := "bbbbbbbbbbbbbbbbbbbbbbbb"

def demoRoleId : String := "cccccccccccccccccccccccc"

def demoGhostId : String := "ffffffffffffffffffffffff"

def demoUserA : UserRec :=
  ⟨demoIdA, "Alice", "alice@example.com", bcryptHash "secret1", demoRoleId,
    none, none, "AAAA0001", "active", none, [], 0⟩

def demoUserB : UserRec :=
  ⟨demoIdB, "Bob", "bob@example.com", bcryptHash "secret2", demoRoleId,
    none, some demoIdA, "BBBB0001", "active", none, [], 0⟩

def demoStoreA : Store := ⟨[demoUserA], [⟨demoRoleId⟩], []⟩

def demoStoreB : Store := ⟨[demoUserA, demoUserB], [⟨demoRoleId⟩], []⟩

def demoStore0 : Store := ⟨[], [⟨demoRoleId⟩], []⟩

/-- The patch `{reportingManagerId: <own id>}`. -/
def selfManagerPatch : UpdateData :=
  ⟨none, none, none, none, none, some (some demoIdA), none, none, none⟩

def dA : CreateData :=
  ⟨demoIdA, "Alice", "alice@example.com", "secret1", demoRoleId, none, none, "AAAA0001"⟩

/-- Same email as `dA` up to case normalization, fresh id and report code. -/
def dDupA : CreateData :=
  ⟨"eeeeeeeeeeeeeeeeeeeeeeee", "Eve", "Alice@Example.com", "secret3", demoRoleId,
    none, none, "EEEE0001"⟩

def dB : CreateData :=
  ⟨demoIdB, "Bob", "bob@example.com", "secret2", demoRoleId, none, none, "BBBB0001"⟩

/-- A create input whose manager reference is `demoUserA`. -/
def dManagerB : CreateData :=
  ⟨demoIdB, "Bob", "bob@example.com", "secret2", demoRoleId, none, some demoIdA,
    "BBBB0001"⟩


theorem dotJoin_ne_empty (s t : String) : s ++ "." ++ t ≠ "" := by
  intro h
  have hl := congrArg String.length h
  rw [String.length_append, String.length_append] at hl
  have h1 : ".".length = 1 := rfl
  have h0 : "".length = 0 := rfl
  rw [h1, h0] at hl
  omega

theorem joinDots_append_singleton (acc : List String) (a : String) (h : acc ≠ []) :
    joinDots (acc ++ [a]) = joinDots acc ++ "." ++ a := by
  induction acc with
  | nil => exact absurd rfl h
  | cons x t ih =>
    cases t with
    | nil => simp [joinDots]
    | cons y t2 =>
      have ih2 := ih (by simp)
      have e1 : joinDots ((x :: y :: t2) ++ [a]) = x ++ "." ++ joinDots ((y :: t2) ++ [a]) := rfl
      have e2 : joinDots (x :: y :: t2) = x ++ "." ++ joinDots (y :: t2) := rfl
      rw [e1, ih2, e2]
      simp [String.append_assoc]

theorem parentChain_of_acc (l : List String) :
    ∀ acc : List String, acc ≠ [] → joinDots acc ≠ "" →
      parentChain (joinDots acc) l =
        (List.range l.length).map (fun k => joinDots (acc ++ l.take (k + 1))) := by
  induction l with
  | nil => intro acc _ _; simp [parentChain]
  | cons a l ih =>
    intro acc hacc hne
    have hstep : joinDots (acc ++ [a]) = joinDots acc ++ "." ++ a :=
      joinDots_append_singleton acc a hacc
    have hne2 : joinDots (acc ++ [a]) ≠ "" := by
      rw [hstep]; exact dotJoin_ne_empty _ _
    have ihx := ih (acc ++ [a]) (by simp) hne2
    have htail : parentChain (joinDots acc ++ "." ++ a) l =
        List.map (fun k => joinDots ((acc ++ [a]) ++ List.take (k + 1) l))
          (List.range l.length) := by
      rw [← hstep]; exact ihx
    simp only [parentChain, if_neg hne, List.length_cons, List.range_succ_eq_map,
      List.map_cons, List.map_map, htail, List.cons.injEq]
    constructor
    · simp [hstep]
    · apply List.map_congr_left
      intro k _
      simp [List.append_assoc]

theorem parentChain_eq_properParents (required : String)
    (h : (splitDot required).headD "" ≠ "") :
    parentChain "" ((splitDot required).dropLast) = properParents required := by
  unfold properParents
  cases hp : splitDot required with
  | nil => simp [hp] at h
  | cons p rest =>
    rw [hp] at h
    simp only [List.headD_cons] at h
    cases rest with
    | nil => simp [parentChain]
    | cons r t =>
      have hdl : (p :: r :: t).dropLast = p :: (r :: t).dropLast := by
        simp [List.dropLast]
      rw [hdl]
      have hchain : parentChain "" (p :: (r :: t).dropLast)
          = p :: parentChain p ((r :: t).dropLast) := by
        simp [parentChain]
      rw [hchain]
      have hacc := parentChain_of_acc ((r :: t).dropLast) [p] (by simp)
        (by simpa [joinDots] using h)
      have hjp : joinDots [p] = p := rfl
      rw [hjp] at hacc
      rw [hacc]
      have hlen : (p :: r :: t).length - 1 = (r :: t).dropLast.length + 1 := by
        simp
      rw [hlen, List.range_succ_eq_map, List.map_cons, List.map_map]
      simp only [List.cons.injEq]
      constructor
      · simp [joinDots]
      · apply List.map_congr_left
        intro k hk
        simp only [List.mem_range] at hk
        have htake : (r :: t).dropLast.take (k + 1) = (r :: t).take (k + 1) := by
          rw [List.dropLast_eq_take, List.take_take]
          congr 1
          have hdll : (r :: t).dropLast.length = t.length := by simp
          rw [hdll] at hk
          simp only [List.length_cons, Nat.add_sub_cancel]
          omega
        simp [htake]

theorem hasPermission_eq (granted : List String) (required : String) :
    hasPermission granted required =
      (granted.contains "*" || granted.contains required ||
        (parentChain "" ((splitDot required).dropLast)).any
          (fun p => granted.contains p)) := by
  unfold hasPermission
  cases granted.contains "*"
  · cases granted.contains required
    · simp
    · simp
  · simp

theorem hasPermission_iff (granted : List String) (required : String)
    (h : (splitDot required).headD "" ≠ "") :
    hasPermission granted required = true ↔
      granted.contains "*" = true ∨ granted.contains required = true ∨
        ∃ p ∈ properParents required, granted.contains p = true := by
  rw [hasPermission_eq, parentChain_eq_properParents required h]
  simp [List.any_eq_true, or_assoc]

/-- C1: `hasPermission(granted, required)` returns true iff `granted`
contains the wildcard `*`, or contains `required` exactly, or contains a
proper dotted parent of `required` built from its leading segments; in
particular `["a"]` grants `"a.b.c"`, `["x"]` does not, and any set
containing `*` grants everything. -/
theorem C1_hasPermission_spec :
    (∀ (granted : List String) (required : String),
        required ≠ "" → (splitDot required).headD "" ≠ "" →
        (hasPermission granted required = true ↔
          granted.contains "*" = true ∨ granted.contains required = true ∨
            ∃ p ∈ properParents required, granted.contains p = true))
    ∧ hasPermission ["a"] "a.b.c" = true
    ∧ hasPermission ["x"] "a.b.c" = false
    ∧ (∀ (granted : List String) (required : String),
        granted.contains "*" = true → hasPermission granted required = true) := by
  refine ⟨?_, by decide, by decide, ?_⟩
  · intro granted required _ h
    exact hasPermission_iff granted required h
  · intro granted required h
    rw [hasPermission_eq, h]
    simp

theorem C1_hasPermission_spec_witness :
    ("users.edit.role" ≠ "" ∧ (splitDot "users.edit.role").headD "" ≠ "") ∧
      (hasPermission ["users"] "users.edit.role" = true ↔
        (["users"] : List String).contains "*" = true ∨
          (["users"] : List String).contains "users.edit.role" = true ∨
          ∃ p ∈ properParents "users.edit.role",
            (["users"] : List String).contains p = true) :=
  ⟨⟨by decide, by decide⟩,
    C1_hasPermission_spec.1 ["users"] "users.edit.role" (by decide) (by decide)⟩

/-- C8 counterexample: the evaluator signals no error — an empty `required`
returns `false`, a trailing-dot string such as `"users."` is evaluated (its
leading segment `"users"` matches), and a leading-dot string such as
`".users"` is evaluated (its empty leading accumulator can match `""`). -/
theorem C8_counterexample :
    hasPermission [] "" = false ∧
      hasPermission ["users"] "users." = true ∧
      hasPermission [""] ".users" = true := by
  refine ⟨by decide, by decide, by decide⟩

/-- C8 amended: `hasPermission` has no error path at all: for the empty
required string it returns exactly the wildcard-or-empty-membership check,
and required strings with leading or trailing dots are evaluated by the
same wildcard/exact/parent algorithm rather than rejected. -/
theorem C8_hasPermission_no_error_path :
    (∀ granted : List String,
        hasPermission granted "" = (granted.contains "*" || granted.contains ""))
    ∧ hasPermission ["users"] "users." = true
    ∧ hasPermission [""] ".users" = true := by
  refine ⟨?_, by decide, by decide⟩
  intro granted
  rw [hasPermission_eq]
  have he : parentChain "" ((splitDot "").dropLast) = ([] : List String) := rfl
  rw [he]
  simp

theorem findIndexAux_concat_eq (pre suf : List PageRec) (x : PageRec)
    (hnd : ((pre ++ x :: suf).map PageRec.id).Nodup) :
    findIndexAux (fun r => r.id == x.id) (pre ++ x :: suf) = some pre.length := by
  induction pre with
  | nil => simp [findIndexAux]
  | cons a pre ih =>
    rw [List.cons_append, List.map_cons, List.nodup_cons] at hnd
    obtain ⟨hnotin, hnd2⟩ := hnd
    have hmem : x.id ∈ (pre ++ x :: suf).map PageRec.id :=
      List.mem_map_of_mem _ (by simp)
    have hane : a.id ≠ x.id := fun he => hnotin (he ▸ hmem)
    simp [findIndexAux, hane, ih hnd2]

theorem paginateStart_concat (pre suf : List PageRec) (x : PageRec)
    (hnd : ((pre ++ x :: suf).map PageRec.id).Nodup) (hx : x.id ≠ "") :
    paginateStart (pre ++ x :: suf) (some x.id) = pre.length + 1 := by
  simp [paginateStart, hx, findIndexAux_concat_eq pre suf x hnd]

theorem paginateArray_eq_of_le (items : List PageRec) (cursor : Option String)
    (limit : Nat)
    (h : (items.drop (paginateStart items cursor)).length ≤ limit) :
    paginateArray items cursor limit =
      ⟨items.drop (paginateStart items cursor), ⟨none, false, limit, items.length⟩⟩ := by
  simp only [paginateArray]
  have ht : (items.drop (paginateStart items cursor)).take (limit + 1)
      = items.drop (paginateStart items cursor) :=
    List.take_of_length_le (by omega)
  rw [ht]
  have hm : decide ((items.drop (paginateStart items cursor)).length > limit) = false := by
    rw [decide_eq_false_iff_not]
    omega
  rw [hm]
  simp

theorem paginateArray_eq_of_ge (items : List PageRec) (cursor : Option String)
    (limit : Nat)
    (h : limit + 1 ≤ (items.drop (paginateStart items cursor)).length) :
    paginateArray items cursor limit =
      ⟨(items.drop (paginateStart items cursor)).take limit,
        ⟨((items.drop (paginateStart items cursor)).take limit).getLast?.map PageRec.id,
          true, limit, items.length⟩⟩ := by
  simp only [paginateArray]
  have hlen : ((items.drop (paginateStart items cursor)).take (limit + 1)).length
      = limit + 1 := by
    rw [List.length_take]
    omega
  have hm : decide (((items.drop (paginateStart items cursor)).take (limit + 1)).length
      > limit) = true := by
    rw [hlen]
    simp
  rw [hm]
  have hdl : ((items.drop (paginateStart items cursor)).take (limit + 1)).dropLast
      = (items.drop (paginateStart items cursor)).take limit := by
    rw [List.dropLast_eq_take, hlen, Nat.add_sub_cancel, List.take_take]
    congr 1
    omega
  rw [hdl]
  simp

theorem collectPages_drop (limit : Nat) (hL : 1 ≤ limit) :
    ∀ (fuel : Nat) (pre suf : List PageRec) (cursor : Option String),
      ((pre ++ suf).map PageRec.id).Nodup →
      (∀ r ∈ pre ++ suf, r.id ≠ "") →
      paginateStart (pre ++ suf) cursor = pre.length →
      suf.length + 1 ≤ fuel →
      collectPages (pre ++ suf) limit fuel cursor = suf := by
  intro fuel
  induction fuel with
  | zero => intro pre suf cursor _ _ _ hf; omega
  | succ fuel ih =>
    intro pre suf cursor hnd hne hstart hf
    have hdrop : (pre ++ suf).drop pre.length = suf := List.drop_left pre suf
    by_cases hcase : suf.length ≤ limit
    case pos =>
      have hr := paginateArray_eq_of_le (pre ++ suf) cursor limit
        (by rw [hstart, hdrop]; omega)
      rw [hstart, hdrop] at hr
      simp only [collectPages, hr]
      simp
    case neg =>
      push_neg at hcase
      have hr := paginateArray_eq_of_ge (pre ++ suf) cursor limit
        (by rw [hstart, hdrop]; omega)
      rw [hstart, hdrop] at hr
      have hlen : (suf.take limit).length = limit := by
        rw [List.length_take]; omega
      have hne0 : suf.take limit ≠ [] := by
        intro h0
        rw [h0] at hlen
        simp at hlen
        omega
      obtain ⟨t, y, hty⟩ := (List.eq_nil_or_concat (suf.take limit)).resolve_left hne0
      rw [List.concat_eq_append] at hty
      have hgl : (suf.take limit).getLast?.map PageRec.id = some y.id := by
        rw [hty, List.getLast?_concat]
        rfl
      have hsuf : (t ++ [y]) ++ suf.drop limit = suf := by
        rw [← hty]; exact List.take_append_drop _ _
      have hitems : pre ++ suf = (pre ++ t) ++ y :: suf.drop limit := by
        conv_lhs => rw [← hsuf]
        simp [List.append_assoc]
      have hnd2 : (((pre ++ t) ++ y :: suf.drop limit).map PageRec.id).Nodup := by
        rw [← hitems]; exact hnd
      have hyne : y.id ≠ "" := by
        apply hne
        rw [hitems]; simp
      have hstart2 : paginateStart (pre ++ suf) (some y.id) = (pre ++ t).length + 1 := by
        have hps := paginateStart_concat (pre ++ t) (suf.drop limit) y hnd2 hyne
        rw [← hitems] at hps
        exact hps
      have hitems2 : (pre ++ (t ++ [y])) ++ suf.drop limit = pre ++ suf := by
        rw [List.append_assoc, hsuf]
      have ihx := ih (pre ++ (t ++ [y])) (suf.drop limit) (some y.id)
        (by rw [hitems2]; exact hnd)
        (by intro r hr2; apply hne; rw [← hitems2]; exact hr2)
        (by rw [hitems2, hstart2]
            simp only [List.length_append, List.length_cons, List.length_nil]
            omega)
        (by rw [List.length_drop]; omega)
      rw [hitems2] at ihx
      simp only [collectPages, hr]
      rw [if_true, hgl, ihx]
      exact List.take_append_drop limit suf

/-- C4 amended: for pairwise-distinct, nonempty (JS-truthy) ids and
`limit ≥ 1`: each call returns at most `limit` rows; `hasMore` is true
exactly when `limit + 1` rows fall in the window after the cursor;
when `hasMore` is true exactly one extra row was dropped (the data has
exactly `limit` rows) and `nextCursor` is the id of the last returned row;
`nextCursor` is null when `hasMore` is false; and the chained traversal
from `cursor = null` returns exactly the array, in order. -/
theorem C4_paginateArray_spec (items : List PageRec) (limit : Nat)
    (hnd : (items.map PageRec.id).Nodup)
    (hne : ∀ r ∈ items, r.id ≠ "")
    (hL : 1 ≤ limit) :
    (∀ cursor, (paginateArray items cursor limit).data.length ≤ limit)
    ∧ (∀ cursor, (paginateArray items cursor limit).pagination.hasMore = true ↔
        limit + 1 ≤ (items.drop (paginateStart items cursor)).length)
    ∧ (∀ cursor, (paginateArray items cursor limit).pagination.hasMore = true →
        (paginateArray items cursor limit).data.length = limit ∧
          (paginateArray items cursor limit).pagination.nextCursor =
            (paginateArray items cursor limit).data.getLast?.map PageRec.id)
    ∧ (∀ cursor, (paginateArray items cursor limit).pagination.hasMore = false →
        (paginateArray items cursor limit).pagination.nextCursor = none)
    ∧ traverseAll items limit = items := by
  refine ⟨?_, ?_, ?_, ?_, ?_⟩
  · intro cursor
    by_cases hc : limit + 1 ≤ (items.drop (paginateStart items cursor)).length
    · rw [paginateArray_eq_of_ge items cursor limit hc]
      simp only [List.length_take]
      omega
    · rw [paginateArray_eq_of_le items cursor limit (by omega)]
      show (items.drop (paginateStart items cursor)).length ≤ limit
      omega
  · intro cursor
    by_cases hc : limit + 1 ≤ (items.drop (paginateStart items cursor)).length
    · rw [paginateArray_eq_of_ge items cursor limit hc]
      simpa using hc
    · rw [paginateArray_eq_of_le items cursor limit (by omega)]
      simpa using hc
  · intro cursor hm
    by_cases hc : limit + 1 ≤ (items.drop (paginateStart items cursor)).length
    · rw [paginateArray_eq_of_ge items cursor limit hc]
      refine ⟨?_, rfl⟩
      simp only [List.length_take]
      omega
    · rw [paginateArray_eq_of_le items cursor limit (by omega)] at hm
      exact Bool.noConfusion hm
  · intro cursor hm
    by_cases hc : limit + 1 ≤ (items.drop (paginateStart items cursor)).length
    · rw [paginateArray_eq_of_ge items cursor limit hc] at hm
      exact Bool.noConfusion hm
    · rw [paginateArray_eq_of_le items cursor limit (by omega)]
  · have := collectPages_drop limit hL (items.length + 1) [] items none
      (by simpa using hnd) (by simpa using hne) (by rfl) (by omega)
    simpa [traverseAll] using this

theorem C4_paginateArray_spec_witness :
    (((([⟨"a", 10⟩, ⟨"b", 20⟩, ⟨"c", 30⟩] : List PageRec).map PageRec.id).Nodup
        ∧ (∀ r ∈ ([⟨"a", 10⟩, ⟨"b", 20⟩, ⟨"c", 30⟩] : List PageRec), r.id ≠ "")
        ∧ 1 ≤ 2)
      ∧ traverseAll [⟨"a", 10⟩, ⟨"b", 20⟩, ⟨"c", 30⟩] 2
          = [⟨"a", 10⟩, ⟨"b", 20⟩, ⟨"c", 30⟩]) :=
  ⟨⟨by decide, by decide, by decide⟩,
    (C4_paginateArray_spec [⟨"a", 10⟩, ⟨"b", 20⟩, ⟨"c", 30⟩] 2
      (by decide) (by decide) (by decide)).2.2.2.2⟩

/-- C4 counterexample: with pairwise-distinct ids and `limit = 1` the
chained traversal does NOT always return the array: a record whose id is
the empty string is a falsy JS cursor, so the traversal restarts from the
beginning and repeats the first row instead of advancing. -/
theorem C4_counterexample :
    ((([⟨"", 0⟩, ⟨"b", 1⟩] : List PageRec).map PageRec.id).Nodup ∧ 1 ≤ 1) ∧
      traverseAll [⟨"", 0⟩, ⟨"b", 1⟩] 1 ≠ [⟨"", 0⟩, ⟨"b", 1⟩] := by
  refine ⟨⟨by decide, by decide⟩, by decide⟩


/-- C7 counterexample: the schema combinators use exact membership, not
the wildcard/prefix evaluator of `data.js` — permissions `["users"]` (and
even `["*"]`) do not satisfy `hasAnyPermission(["users.view"])`, although
the prefix evaluator grants `users.view` from both. -/
theorem C7_counterexample :
    (UserRec.hasAnyPermission
        ⟨"u1", "N", "n@x.com", "h", "r1", none, none, "AAAA0001", "active", none,
          ["users"], 0⟩ ["users.view"] = false
      ∧ hasPermission ["users"] "users.view" = true)
    ∧ (UserRec.hasAnyPermission
        ⟨"u2", "N", "m@x.com", "h", "r1", none, none, "AAAA0002", "active", none,
          ["*"], 0⟩ ["users.view"] = false
      ∧ hasPermission ["*"] "users.view" = true) := by
  refine ⟨⟨by decide, by decide⟩, ⟨by decide, by decide⟩⟩

/-- C7 amended: `hasAnyPermission`/`hasAllPermissions` are the OR/AND over
the schema's own primitive `hasPermission` instance method, which is exact
membership in `permissions` — equivalently, OR/AND of plain membership —
and are not built from the hierarchy-aware evaluator. -/
theorem C7_combinators_exact_membership :
    ∀ (u : UserRec) (ps : List String),
      u.hasAnyPermission ps = ps.any (fun p => u.hasPermission p)
      ∧ u.hasAllPermissions ps = ps.all (fun p => u.hasPermission p)
      ∧ (u.hasAnyPermission ps = true ↔ ∃ p ∈ ps, p ∈ u.permissions)
      ∧ (u.hasAllPermissions ps = true ↔ ∀ p ∈ ps, p ∈ u.permissions) := by
  intro u ps
  refine ⟨rfl, rfl, ?_, ?_⟩
  · simp [UserRec.hasAnyPermission, List.any_eq_true]
  · simp [UserRec.hasAllPermissions, List.all_eq_true]

/-- C6: login with an email matching no principal and login with an email
matching an active principal but a failing secret comparison produce the
very same `UnauthorizedError` value — type, status and message all equal,
so the outcome does not reveal which credential was wrong. -/
theorem C6_login_no_account_enumeration :
    ∀ (store : Store) (e1 p1 e2 p2 : String) (n1 n2 : Nat) (u : UserRec),
      e1 ≠ "" → p1 ≠ "" →
      (∀ v ∈ store.users, v.email ≠ toLowerStr e1) →
      e2 ≠ "" → p2 ≠ "" →
      store.users.find? (fun v => v.email == toLowerStr e2) = some u →
      u.status = "active" →
      bcryptCompare p2 u.password = false →
      (AuthService.login store e1 p1 n1).1
          = .error (createUnauthorizedError "Invalid email or password")
        ∧ (AuthService.login store e2 p2 n2).1
          = .error (createUnauthorizedError "Invalid email or password")
        ∧ (AuthService.login store e1 p1 n1).1 = (AuthService.login store e2 p2 n2).1 := by
  intro store e1 p1 e2 p2 n1 n2 u he1 hp1 hmiss he2 hp2 hfind hactive hcmp
  have hfind1 : store.users.find? (fun v => v.email == toLowerStr e1) = none := by
    apply List.find?_eq_none.mpr
    intro v hv
    simp only [beq_iff_eq]
    exact hmiss v hv
  have hA : (AuthService.login store e1 p1 n1).1
      = .error (createUnauthorizedError "Invalid email or password") := by
    simp [AuthService.login, he1, hp1, hfind1]
  have hB : (AuthService.login store e2 p2 n2).1
      = .error (createUnauthorizedError "Invalid email or password") := by
    simp [AuthService.login, he2, hp2, hfind, hactive, hcmp]
  exact ⟨hA, hB, by rw [hA, hB]⟩

theorem C6_login_no_account_enumeration_witness :
    (("ghost@example.com" : String) ≠ "" ∧ ("pw" : String) ≠ ""
      ∧ (∀ v ∈ demoStoreA.users, v.email ≠ toLowerStr "ghost@example.com")
      ∧ ("alice@example.com" : String) ≠ "" ∧ ("wrongpw" : String) ≠ ""
      ∧ demoStoreA.users.find? (fun v => v.email == toLowerStr "alice@example.com")
          = some demoUserA
      ∧ demoUserA.status = "active"
      ∧ bcryptCompare "wrongpw" demoUserA.password = false)
    ∧ (AuthService.login demoStoreA "ghost@example.com" "pw" 1).1
        = (AuthService.login demoStoreA "alice@example.com" "wrongpw" 2).1 :=
  ⟨⟨by decide, by decide, by decide, by decide, by decide, by decide, by decide, by decide⟩,
    (C6_login_no_account_enumeration demoStoreA "ghost@example.com" "pw"
      "alice@example.com" "wrongpw" 1 2 demoUserA (by decide) (by decide) (by decide)
      (by decide) (by decide) (by decide) (by decide) (by decide)).2.2⟩

/-- C3 counterexample: deleting a managed principal fails, but with a
plain `new Error` — the error taxonomy of `error.middleware.js` has no
conflict/dependency type at all, and the global error handler classifies
this failure as 500 `INTERNAL_ERROR`, i.e. a generic internal error. -/
theorem C3_counterexample :
    UserService.deleteUser demoStoreB demoIdA
        = (.error (.jsError
            "Cannot delete user with subordinates. Reassign subordinates first."),
          demoStoreB)
      ∧ errorCode (.jsError
          "Cannot delete user with subordinates. Reassign subordinates first.")
        = "INTERNAL_ERROR"
      ∧ errorStatusCode (.jsError
          "Cannot delete user with subordinates. Reassign subordinates first.") = 500 := by
  refine ⟨by decide, by decide, by decide⟩

/-- C3 amended: for every existing principal with at least one
subordinate, `deleteUser` fails — with a plain generic `Error` (classified
500/`INTERNAL_ERROR` by the error handler, there is no ConflictError in
the taxonomy) carrying the subordinate message — and the store (both the
principal and the subordinate records) is returned unchanged. -/
theorem C3_deleteUser_subordinates_fails_unchanged :
    ∀ (store : Store) (id : String),
      isValidObjectId id = true →
      (findUserById store id).isSome = true →
      0 < countSubordinates store id →
      UserService.deleteUser store id =
        (.error (.jsError
          "Cannot delete user with subordinates. Reassign subordinates first."), store) := by
  intro store id hv hex hsub
  obtain ⟨u, hu⟩ := Option.isSome_iff_exists.mp hex
  simp [UserService.deleteUser, hv, hu, hsub]

theorem C3_deleteUser_subordinates_fails_unchanged_witness :
    (isValidObjectId demoIdA = true
      ∧ (findUserById demoStoreB demoIdA).isSome = true
      ∧ 0 < countSubordinates demoStoreB demoIdA)
    ∧ UserService.deleteUser demoStoreB demoIdA =
        (.error (.jsError
          "Cannot delete user with subordinates. Reassign subordinates first."),
          demoStoreB) :=
  ⟨⟨by decide, by decide, by decide⟩,
    C3_deleteUser_subordinates_fails_unchanged demoStoreB demoIdA (by decide) (by decide)
      (by decide)⟩

/-- C5: when the create input's report code or email already belongs to an
existing principal (after upper/lower case normalization), `createUser`
returns a `ValidationError` (400, `VALIDATION_ERROR`) and the store is
returned unchanged — no principal added, no record modified. -/
theorem C5_createUser_duplicate_validation :
    ∀ (store : Store) (data : CreateData) (now : Nat),
      ((∃ u ∈ store.users, u.reportCode = toUpperStr data.reportCode) ∨
        (∃ u ∈ store.users, u.email = toLowerStr data.email)) →
      (UserService.createUser store data now).2 = store ∧
        ∃ e, (UserService.createUser store data now).1 = .error e ∧
          errorCode e = "VALIDATION_ERROR" ∧ errorStatusCode e = 400 := by
  intro store data now hdup
  by_cases hrc : reportCodeExists store data.reportCode none = true
  · have h2 : UserService.createUser store data now =
        (.error (createValidationError [("reportCode", "Report code already in use")]),
          store) := by
      simp [UserService.createUser, hrc]
    rw [h2]
    exact ⟨rfl, ⟨_, rfl, rfl, rfl⟩⟩
  · have hrcf : reportCodeExists store data.reportCode none = false :=
      Bool.eq_false_iff.mpr hrc
    have hem : emailExists store data.email none = true := by
      rcases hdup with ⟨u, hu, he⟩ | ⟨u, hu, he⟩
      · exfalso
        apply hrc
        apply List.any_eq_true.mpr
        exact ⟨u, hu, by simp [he]⟩
      · apply List.any_eq_true.mpr
        exact ⟨u, hu, by simp [he]⟩
    have h2 : UserService.createUser store data now =
        (.error (createValidationError [("email", "Email already in use")]), store) := by
      simp [UserService.createUser, hrcf, hem]
    rw [h2]
    exact ⟨rfl, ⟨_, rfl, rfl, rfl⟩⟩

theorem C5_createUser_duplicate_validation_witness :
    ((∃ u ∈ demoStoreA.users, u.reportCode = toUpperStr dDupA.reportCode) ∨
        (∃ u ∈ demoStoreA.users, u.email = toLowerStr dDupA.email))
      ∧ ((UserService.createUser demoStoreA dDupA 9).2 = demoStoreA ∧
          ∃ e, (UserService.createUser demoStoreA dDupA 9).1 = .error e ∧
            errorCode e = "VALIDATION_ERROR" ∧ errorStatusCode e = 400) :=
  ⟨Or.inr (by decide), C5_createUser_duplicate_validation demoStoreA dDupA 9
    (Or.inr (by decide))⟩

theorem createUser_not_ok_of_missing_manager
    (store : Store) (data : CreateData) (now : Nat) (m : String)
    (hm : data.reportingManagerId = some m) (hne : m ≠ "")
    (hmiss : findUserById store m = none) :
    ∀ (v : UserView) (st : Store),
      UserService.createUser store data now ≠ (.ok v, st) := by
  intro v st h
  unfold UserService.createUser at h
  split at h
  · simp at h
  split at h
  · simp at h
  split at h
  · simp at h
  split at h
  · simp at h
  split at h
  · simp at h
  split at h
  · simp at h
  rename_i hc1 hc2 hc3 hc4 hc5 hc6
  apply hc6
  rw [hm]
  simp [truthyStr, hne, hmiss]

theorem updateUser_not_ok_of_missing_manager
    (store : Store) (id : String) (d : UpdateData) (now : Nat) (m : String)
    (hm : d.reportingManagerId = some (some m)) (hne : m ≠ "")
    (hmiss : findUserById store m = none)
    (hcur : ∀ u ∈ store.users, u._id = id → u.reportingManagerId ≠ some m) :
    ∀ (v : UserView) (st : Store),
      UserService.updateUser store id d now ≠ (.ok v, st) := by
  intro v st h
  unfold UserService.updateUser at h
  split at h
  · simp at h
  split at h
  · simp at h
  split at h
  · simp at h
  split at h
  · simp at h
  split at h
  · simp at h
  split at h
  · simp at h
  split at h
  · simp at h
  split at h
  · simp at h
  split at h
  · simp at h
  rename_i hval x1 u0 heq0 hcE hcC hcP x2 user heq hcR hcD hc6
  apply hc6
  injection heq with huq
  subst huq
  have huser : u0 ∈ store.users := List.mem_of_find?_eq_some heq0
  have hid : u0._id = id := by
    have := List.find?_some heq0
    simpa using this
  have hcm : u0.reportingManagerId ≠ some m := hcur u0 huser hid
  rw [hm]
  simp [truthyStr, hne, hmiss]
  exact fun hx => absurd hx.symm hcm

/-- C2 amended: `createUser` and `updateUser` validate that a provided
(and, for update, changed) `reportingManagerId` references an existing
principal, but perform no cycle detection whatsoever — in particular
`updateUser(id, {reportingManagerId: id})` succeeds and makes a principal
its own manager (see the counterexample). This theorem proves the
existence-validation half: a successful create implies the referenced
manager existed, and a successful update implies the patched manager
existed or already was the principal's manager. -/
theorem C2_managerRef_existence :
    (∀ (store : Store) (data : CreateData) (now : Nat) (m : String) (v : UserView)
        (st : Store),
        UserService.createUser store data now = (.ok v, st) →
        data.reportingManagerId = some m → m ≠ "" →
        ∃ u ∈ store.users, u._id = m)
    ∧ (∀ (store : Store) (id : String) (d : UpdateData) (now : Nat) (m : String)
        (v : UserView) (st : Store),
        UserService.updateUser store id d now = (.ok v, st) →
        d.reportingManagerId = some (some m) → m ≠ "" →
        (∃ u ∈ store.users, u._id = m) ∨
          (∃ u ∈ store.users, u._id = id ∧ u.reportingManagerId = some m)) := by
  constructor
  · intro store data now m v st h hm hne
    by_contra hnex
    push_neg at hnex
    have hmiss : findUserById store m = none := by
      apply List.find?_eq_none.mpr
      intro u hu
      simp
      exact hnex u hu
    exact createUser_not_ok_of_missing_manager store data now m hm hne hmiss v st h
  · intro store id d now m v st h hm hne
    by_contra hnex
    push_neg at hnex
    have hmiss : findUserById store m = none := by
      apply List.find?_eq_none.mpr
      intro u hu
      simp
      exact hnex.1 u hu
    exact updateUser_not_ok_of_missing_manager store id d now m hm hne hmiss
      hnex.2 v st h

theorem C2_managerRef_existence_witness :
    (dManagerB.reportingManagerId = some demoIdA ∧ demoIdA ≠ "")
      ∧ ∃ u ∈ demoStoreA.users, u._id = demoIdA :=
  ⟨⟨rfl, by decide⟩,
    C2_managerRef_existence.1 demoStoreA dManagerB 7 demoIdA _ _ rfl rfl (by decide)⟩

/-- C2 counterexample: `updateUser(id, {reportingManagerId: id})`
succeeds — the in-transaction manager lookup finds the principal itself —
leaving the principal as its own manager, a one-element cycle that the
claim requires the service to reject. -/
theorem C2_counterexample :
    (UserService.updateUser demoStoreA demoIdA selfManagerPatch 5).1.isOk = true
      ∧ ((UserService.updateUser demoStoreA demoIdA selfManagerPatch 5).2.users.map
          (fun u => (u._id, u.reportingManagerId)))
        = [(demoIdA, some demoIdA)] := by
  refine ⟨by decide, by decide⟩

/-- C9: `bulkCreateUsers` processes the batch sequentially; every item
lands in exactly one of `results`/`errors` (their lengths sum to the batch
size — no failure aborts later items), and on the concrete batch
`[valid, duplicateEmail, valid2]` it returns 2 results and 1 error with
both valid principals persisted. -/
theorem C9_bulkCreate_partial_success :
    (∀ (store : Store) (items : List CreateData) (now : Nat),
        (UserService.bulkCreateUsers store items now).1.1.length
          + (UserService.bulkCreateUsers store items now).1.2.length = items.length)
    ∧ (UserService.bulkCreateUsers demoStore0 [dA, dDupA, dB] 7).1.1.length = 2
    ∧ (UserService.bulkCreateUsers demoStore0 [dA, dDupA, dB] 7).1.2.length = 1
    ∧ ((UserService.bulkCreateUsers demoStore0 [dA, dDupA, dB] 7).2.users.map
        (fun u => u._id)) = [demoIdA, demoIdB] := by
  refine ⟨?_, by decide, by decide, by decide⟩
  intro store items now
  induction items generalizing store with
  | nil => simp [UserService.bulkCreateUsers]
  | cons d rest ih =>
    rcases hc : UserService.createUser store d now with ⟨r, store2⟩
    cases r with
    | ok u =>
      simp only [UserService.bulkCreateUsers, hc, List.length_cons]
      have hih := ih store2
      omega
    | error e =>
      simp only [UserService.bulkCreateUsers, hc, List.length_cons]
      have hih := ih store2
      omega

theorem bulkDeleteLoop_failed_sub (idx : String) :
    ∀ (ids : List String) (store : Store),
      idx ∈ ((UserService.bulkDeleteLoop store ids).1.2.map Prod.fst) → idx ∈ ids := by
  intro ids
  induction ids with
  | nil => intro store h; simp [UserService.bulkDeleteLoop] at h
  | cons i rest ih =>
    intro store h
    simp only [UserService.bulkDeleteLoop] at h
    split at h
    · simp only [List.map_cons, List.mem_cons] at h
      rcases h with h | h
      · simp [h]
      · exact List.mem_cons_of_mem _ (ih store h)
    · exact List.mem_cons_of_mem _ (ih (deleteUserDoc store i) h)

theorem bulkDeleteLoop_mem (idx : String) :
    ∀ (ids : List String) (store : Store),
      (∀ u ∈ store.users, u.reportingManagerId ≠ some idx) →
      (∀ dep ∈ store.departments, dep.headId ≠ some idx) →
      idx ∈ ids →
      idx ∈ (UserService.bulkDeleteLoop store ids).1.1
        ∧ idx ∉ ((UserService.bulkDeleteLoop store ids).1.2.map Prod.fst) := by
  intro ids
  induction ids with
  | nil => intro store _ _ h; simp at h
  | cons i rest ih =>
    intro store hsub hhead hmem
    have hpres : ∀ (j : String) (u : UserRec), u ∈ (deleteUserDoc store j).users →
        u.reportingManagerId ≠ some idx := by
      intro j u hu
      exact hsub u (List.mem_of_mem_filter hu)
    have hpresh : ∀ (j : String) (dep : DepartmentRec),
        dep ∈ (deleteUserDoc store j).departments → dep.headId ≠ some idx := by
      intro j dep hd
      exact hhead dep hd
    simp only [UserService.bulkDeleteLoop]
    by_cases hii : idx = i
    · subst hii
      have hcount0 : countSubordinates store idx = 0 := by
        unfold countSubordinates
        rw [List.length_eq_zero, List.filter_eq_nil_iff]
        intro u hu
        simp
        exact hsub u hu
      have hhead0 : countDeptHeadOf store idx = 0 := by
        unfold countDeptHeadOf
        rw [List.length_eq_zero, List.filter_eq_nil_iff]
        intro dep hd
        simp
        exact hhead dep hd
      rw [if_neg (by simp [hcount0, hhead0])]
      constructor
      · simp
      · by_cases hmem2 : idx ∈ rest
        · exact (ih (deleteUserDoc store idx) (hpres idx) (hpresh idx) hmem2).2
        · intro hin
          exact hmem2 (bulkDeleteLoop_failed_sub idx rest _ hin)
    · have hmem2 : idx ∈ rest := by
        rcases List.mem_cons.mp hmem with h | h
        · exact absurd h hii
        · exact h
      by_cases hci : (decide (countSubordinates store i > 0)
          || decide (countDeptHeadOf store i > 0)) = true
      · rw [if_pos hci]
        have hr := ih store hsub hhead hmem2
        refine ⟨hr.1, ?_⟩
        simp only [List.map_cons, List.mem_cons]
        intro hx
        rcases hx with hx | hx
        · exact hii hx
        · exact hr.2 hx
      · rw [if_neg (by simpa using hci)]
        have hr := ih (deleteUserDoc store i) (hpres i) (hpresh i) hmem2
        exact ⟨List.mem_cons_of_mem _ hr.1, hr.2⟩

/-- C10: for a well-formed (ObjectId-valid) id that matches no existing
principal — and, as the code's only per-id checks require, has no
dangling subordinate references and no department headship —
`bulkDeleteUsers` reports the id in `deleted` as if a principal had been
removed, and never as a failure entry: the loop performs no existence
check. -/
theorem C10_bulkDelete_reports_nonexistent_as_deleted :
    ∀ (store : Store) (ids : List String) (id : String),
      (∀ i ∈ ids, isValidObjectId i = true) →
      id ∈ ids →
      (∀ u ∈ store.users, u._id ≠ id) →
      (∀ u ∈ store.users, u.reportingManagerId ≠ some id) →
      (∀ dep ∈ store.departments, dep.headId ≠ some id) →
      UserService.bulkDeleteUsers store ids
          = (.ok (UserService.bulkDeleteLoop store ids).1,
              (UserService.bulkDeleteLoop store ids).2)
        ∧ id ∈ (UserService.bulkDeleteLoop store ids).1.1
        ∧ id ∉ ((UserService.bulkDeleteLoop store ids).1.2.map Prod.fst) := by
  intro store ids id hvalid hmem hnouser hsub hhead
  have hfilter : ids.filter (fun i => !(isValidObjectId i)) = [] := by
    rw [List.filter_eq_nil_iff]
    intro i hi
    simp [hvalid i hi]
  have hmain := bulkDeleteLoop_mem id ids store hsub hhead hmem
  refine ⟨?_, hmain.1, hmain.2⟩
  simp [UserService.bulkDeleteUsers, hfilter]

theorem C10_bulkDelete_reports_nonexistent_as_deleted_witness :
    ((∀ i ∈ [demoGhostId], isValidObjectId i = true)
      ∧ demoGhostId ∈ [demoGhostId]
      ∧ (∀ u ∈ demoStoreA.users, u._id ≠ demoGhostId)
      ∧ (∀ u ∈ demoStoreA.users, u.reportingManagerId ≠ some demoGhostId)
      ∧ (∀ dep ∈ demoStoreA.departments, dep.headId ≠ some demoGhostId))
    ∧ demoGhostId ∈ (UserService.bulkDeleteLoop demoStoreA [demoGhostId]).1.1 :=
  ⟨⟨by decide, by decide, by decide, by decide, by decide⟩,
    (C10_bulkDelete_reports_nonexistent_as_deleted demoStoreA [demoGhostId] demoGhostId
      (by decide) (by decide) (by decide) (by decide) (by decide)).2.1⟩
